import Mathlib

/-!
Verification of the MeTransfer gallery storage and derived-artifact subsystem
(`server.js`).  The definitions below are a shallow embedding of the server's
state and of the handlers the claims refer to; filesystem directories are
modelled as association lists, image decoding (the `sharp` library) as an
explicit function parameter, and each Express handler as a pure state
transition.
-/

namespace MeTransfer

/-- Raw file contents. -/
abbrev Bytes := List Nat

/-- A gallery record, as stored in the in-memory `galleries` Map and in
`galleries.json` (fields `id`, `eventName`, `created`, `files`, `background`). -/
structure Gallery where
  id : String
  eventName : String
  created : String
  files : List String
  background : Option String
deriving Repr, DecidableEq

/-- The in-memory `galleries` JavaScript `Map`, modelled as an insertion-ordered
association list. -/
abbrev GalleryMap := List (String × Gallery)

/-- `galleries.get(k)` -/
def mapGet (m : GalleryMap) (k : String) : Option Gallery :=
  (m.find? (fun p => p.1 == k)).map (fun p => p.2)

/-- `galleries.has(k)` -/
def mapHas (m : GalleryMap) (k : String) : Bool :=
  m.any (fun p => p.1 == k)

/-- `galleries.set(k, v)`: update in place when present, append otherwise
(JavaScript `Map` keeps insertion order). -/
def mapSet (m : GalleryMap) (k : String) (v : Gallery) : GalleryMap :=
  if mapHas m k then m.map (fun p => if p.1 == k then (k, v) else p)
  else m ++ [(k, v)]

/-- `galleries.delete(k)` -/
def mapDelete (m : GalleryMap) (k : String) : GalleryMap :=
  m.filter (fun p => !(p.1 == k))

/-- One entry of the `uploads/` directory: either a per-gallery directory
(with its own file listing) or a stray regular file. `birthtime` is the
creation time `fs.statSync(...).birthtime.toISOString()` would report. -/
structure UploadsEntry where
  name : String
  isDir : Bool
  files : List (String × Bytes)
  birthtime : String
deriving Repr, DecidableEq

/-- The server state visible to the modelled handlers: the in-memory gallery
map, the parsed contents of the persisted `galleries.json`, the `uploads/`
tree, and the `backgrounds/`, `thumbnails/` and `og-cache/` directories. -/
structure ServerState where
  galleries : GalleryMap
  persisted : List Gallery
  uploadsDirExists : Bool
  uploads : List UploadsEntry
  backgrounds : List (String × Bytes)
  thumbs : List (String × String × Bytes)
  ogCache : List (String × Bytes)
deriving Repr, DecidableEq

/-- `fs.existsSync(path.join(DATA_DIR, 'uploads', name))` -/
def existsUpload (s : ServerState) (name : String) : Bool :=
  s.uploadsDirExists && s.uploads.any (fun e => e.name == name)

/-- The entry of `uploads/` named `id`, when the uploads tree exists. -/
def findUpload (s : ServerState) (id : String) : Option UploadsEntry :=
  if s.uploadsDirExists then s.uploads.find? (fun e => e.name == id) else none

/-- JavaScript's `s.startsWith(pre)`, on characters. -/
def strStarts (s pre : String) : Bool :=
  pre.data.isPrefixOf s.data

/-- `fs.readdirSync(dir).filter(f => !f.startsWith('.'))` on a directory's
raw contents, keeping names only. -/
def nonHidden (files : List (String × Bytes)) : List String :=
  (files.map (fun p => p.1)).filter (fun f => !(strStarts f "."))

/-- Same filter, keeping contents (used where the handler then reads a file). -/
def nonHiddenB (files : List (String × Bytes)) : List (String × Bytes) :=
  files.filter (fun p => !(strStarts p.1 "."))

/-- `fs.unlinkSync`: remove a file from a directory listing. -/
def removeFile (files : List (String × Bytes)) (name : String) : List (String × Bytes) :=
  files.filter (fun p => !(p.1 == name))

/-- Writing a file: replace any previous file of the same name. -/
def writeFileEntry (files : List (String × Bytes)) (name : String) (b : Bytes) :
    List (String × Bytes) :=
  removeFile files name ++ [(name, b)]

/-! ## Identifier Validator (`UUID_V4_REGEX` and `validateGalleryId`) -/

/-- A character matched by `[0-9a-f]` under the regex's `i` flag. -/
def isHexChar (c : Char) : Bool :=
  (('0' ≤ c && c ≤ '9') || ('a' ≤ c && c ≤ 'f') || ('A' ≤ c && c ≤ 'F'))

/-- A character matched by `[89ab]` under the `i` flag. -/
def isVariantChar (c : Char) : Bool :=
  (c == '8' || c == '9' || c == 'a' || c == 'b' || c == 'A' || c == 'B')

/-- Consume exactly `n` hex characters (`[0-9a-f]{n}` with `i`). -/
def hexRun : Nat → List Char → Option (List Char)
  | 0, cs => some cs
  | _ + 1, [] => none
  | n + 1, c :: cs => if isHexChar c then hexRun n cs else none

/-- Consume one literal character. -/
def expectChar (d : Char) : List Char → Option (List Char)
  | [] => none
  | c :: cs => if c == d then some cs else none

/-- Consume one character of `[89ab]` (case-insensitive). -/
def expectVariant : List Char → Option (List Char)
  | [] => none
  | c :: cs => if isVariantChar c then some cs else none

/-- Structural parse of
`/^[0-9a-f]{8}-[0-9a-f]{4}-4[0-9a-f]{3}-[89ab][0-9a-f]{3}-[0-9a-f]{12}$/i`:
the remaining input after matching the anchored pattern, if it matches. -/
def uuidParse (cs : List Char) : Option (List Char) :=
  ((((((((((hexRun 8 cs).bind (expectChar '-')).bind (hexRun 4)).bind
    (expectChar '-')).bind (expectChar '4')).bind (hexRun 3)).bind
    (expectChar '-')).bind expectVariant).bind (hexRun 3)).bind
    (expectChar '-')).bind (hexRun 12)

/-- `UUID_V4_REGEX.test(s)`: the pattern matches the whole string. -/
def uuidRegexTest (s : String) : Bool :=
  uuidParse s.data == some []

/-- The accept/reject decision of the `validateGalleryId` middleware
(it rejects with HTTP 400 exactly when this is `false`). -/
def validateGalleryId (s : String) : Bool :=
  uuidRegexTest s

/-- A group of `n` hex digits (case-insensitive), as the spec's grammar
describes one hyphenated group. -/
def HexGroup (g : List Char) (n : Nat) : Prop :=
  g.length = n ∧ ∀ c ∈ g, isHexChar c = true

/-- The claim's wording of the version-4 UUID textual grammar: five hyphenated
groups of 8-4-4-4-12 hex digits, the third group starting with the digit `4`,
the fourth group starting with one of `8`, `9`, `a`, `b` (case-insensitive). -/
def UuidGrammar (cs : List Char) : Prop :=
  ∃ g1 g2 g3 g4 g5 : List Char,
    cs = g1 ++ '-' :: (g2 ++ '-' :: (g3 ++ '-' :: (g4 ++ '-' :: g5))) ∧
    HexGroup g1 8 ∧ HexGroup g2 4 ∧ HexGroup g3 4 ∧ HexGroup g4 4 ∧
    HexGroup g5 12 ∧
    (∃ t, g3 = '4' :: t) ∧ (∃ v t, g4 = v :: t ∧ isVariantChar v = true)

/-- A string containing the two-character sequence `..`. -/
def ContainsDotDot (cs : List Char) : Prop :=
  ∃ l r : List Char, cs = l ++ '.' :: '.' :: r

/-! ## Filename validation (`SAFE_FILENAME_RE` and `validateFilename`) -/

/-- A character of the class `[a-zA-Z0-9._\-]` of `SAFE_FILENAME_RE`. -/
def isSafeFilenameChar (c : Char) : Bool :=
  (('a' ≤ c && c ≤ 'z') || ('A' ≤ c && c ≤ 'Z') || ('0' ≤ c && c ≤ '9') ||
    c == '.' || c == '_' || c == '-')

/-- `SAFE_FILENAME_RE.test(s)` for `/^[a-zA-Z0-9._\-]+$/`: one or more
characters of the class, nothing else. -/
def safeFilenameTest (s : String) : Bool :=
  !s.data.isEmpty && s.data.all isSafeFilenameChar

/-- The accept/reject decision of the `validateFilename` middleware. -/
def validateFilename (s : String) : Bool :=
  safeFilenameTest s

/-- Outcome of `GET /api/gallery/:galleryId/download/:filename` up to the
filesystem lookup: either a middleware rejects the request, or the handler
interpolates the parameters into the path `uploads/<id>/<filename>` and
performs the lookup there. -/
inductive SingleDownloadStep where
  | badId
  | badFilename
  | lookupAt (path : String)
deriving Repr, DecidableEq

/-- The middleware chain and path construction of the per-photo download
route (`validateGalleryId`, `validateFilename`, then
`path.join(DATA_DIR, 'uploads', galleryId, filename)`). -/
def singleDownloadRoute (galleryId filename : String) : SingleDownloadStep :=
  if !validateGalleryId galleryId then .badId
  else if !validateFilename filename then .badFilename
  else .lookupAt ("uploads/" ++ galleryId ++ "/" ++ filename)

/-! ## Metadata Index persistence (`saveGalleries`) -/

/-- A filesystem mutation that a persistence routine may perform. -/
inductive FsWriteOp where
  | writeFile (path : String) (content : List Gallery)
  | rename (src dst : String)
deriving Repr, DecidableEq

/-- The path of the persisted metadata file, relative to `DATA_DIR`. -/
def GALLERIES_FILE : String := "galleries.json"

/-- The I/O trace of `saveGalleries()`: one `fs.writeFileSync(GALLERIES_FILE,
JSON.stringify(Array.from(galleries.values()), null, 2))`.  File contents are
modelled by the record sequence they serialize. -/
def saveGalleriesTrace (m : GalleryMap) : List FsWriteOp :=
  [FsWriteOp.writeFile GALLERIES_FILE (m.map (fun p => p.2))]

/-- The effect of `saveGalleries()` on the modelled state: the persisted file
now holds the current in-memory table. -/
def doSave (s : ServerState) : ServerState :=
  { s with persisted := s.galleries.map (fun p => p.2) }

/-- The claim's wording of an atomic rewrite: first write the complete
serialized table to a temporary path, then rename it over the persisted
file. -/
def IsTempThenRename (tr : List FsWriteOp) (finalPath : String) : Prop :=
  ∃ tmp content, tmp ≠ finalPath ∧
    tr = [FsWriteOp.writeFile tmp content, FsWriteOp.rename tmp finalPath]

/-! ## Reconciler (`reconcileGalleries`) -/

/-- The record `reconcileGalleries` synthesizes for an uploads directory with
no index entry (the `GET /api/galleries` handler builds the same record). -/
def synthGallery (e : UploadsEntry) : Gallery :=
  { id := e.name, eventName := "Untitled Event", created := e.birthtime,
    files := nonHidden e.files, background := none }

/-- The per-entry test of case 2 of `reconcileGalleries`: the entry's name is
a valid token, it has no index entry, and it is a directory (the code's three
`continue` guards). -/
def shouldAdd (m : GalleryMap) (e : UploadsEntry) : Bool :=
  uuidRegexTest e.name && !(mapHas m e.name) && e.isDir

/-- One step of case 2 of `reconcileGalleries`. -/
def pass2Step (acc : GalleryMap × Bool) (e : UploadsEntry) : GalleryMap × Bool :=
  if shouldAdd acc.1 e then (mapSet acc.1 e.name (synthGallery e), true)
  else acc

/-- Case 2 of `reconcileGalleries`: fold over `fs.readdirSync(uploadsDir)`,
adding a synthesized record for every valid-token directory that has no index
entry; the Bool records whether anything was added (`changed`). -/
def reconcilePass2 (s : ServerState) (m : GalleryMap) : GalleryMap × Bool :=
  if s.uploadsDirExists then s.uploads.foldl pass2Step (m, false)
  else (m, false)

/-- `reconcileGalleries()`: drop index entries whose `uploads/<id>` path does
not exist, synthesize entries for un-indexed valid-token directories, and call
`saveGalleries()` once at the end if either pass changed the table.  Returns
the new state and the number of `saveGalleries` calls performed. -/
def reconcileGalleries (s : ServerState) : ServerState × Nat :=
  let p1 := s.galleries.filter (fun p => existsUpload s p.1)
  let changed1 := s.galleries.any (fun p => !(existsUpload s p.1))
  let r2 := reconcilePass2 s p1
  let changed := changed1 || r2.2
  let s1 := { s with galleries := r2.1 }
  if changed then (doSave s1, 1) else (s1, 0)

/-- One directory entry of the `GET /api/galleries` handler's loop: for a
directory with no index entry it synthesizes a record, inserts it, and calls
`saveGalleries()` immediately (inside the loop). -/
def listStep (acc : ServerState × Nat) (e : UploadsEntry) : ServerState × Nat :=
  if e.isDir then
    match mapGet acc.1.galleries e.name with
    | some _ => acc
    | none =>
      (doSave { acc.1 with
          galleries := mapSet acc.1.galleries e.name (synthGallery e) },
        acc.2 + 1)
  else acc

/-- The reconciliation side effects of the `GET /api/galleries` handler (see
`listStep`), returning the new state and the number of `saveGalleries` calls
performed. -/
def listGalleriesRun (s : ServerState) : ServerState × Nat :=
  if s.uploadsDirExists then s.uploads.foldl listStep (s, 0)
  else (s, 0)

/-! ## Background upload (`POST /api/gallery/:galleryId/background`) -/

/-- Response of the background-upload handler. -/
inductive BgResp where
  | notFound
  | noFile
  | success (background : String)
  | failure
deriving Repr, DecidableEq

/-- The first file of `backgrounds/` whose name starts with the gallery id
(`fs.readdirSync(backgroundsDir).find(f => f.startsWith(galleryId))`). -/
def findBgFile (backgrounds : List (String × Bytes)) (id : String) : Option String :=
  ((backgrounds.map (fun p => p.1)).find? (fun f => strStarts f id))

/-- The background-upload handler.  `sharpBg` models the
`sharp(buffer).resize(2400, ...).jpeg(...).toFile(dest)` pipeline: `none`
means the decode/resize/encode step throws. -/
def backgroundHandler (sharpBg : Bytes → Option Bytes) (s : ServerState)
    (galleryId : String) (file : Option Bytes) : ServerState × BgResp :=
  match mapGet s.galleries galleryId with
  | none => (s, .notFound)
  | some gallery =>
    match file with
    | none => (s, .noFile)
    | some buf =>
      let s1 :=
        match findBgFile s.backgrounds galleryId with
        | some f => { s with backgrounds := removeFile s.backgrounds f }
        | none => s
      let s2 := { s1 with ogCache := removeFile s1.ogCache (galleryId ++ ".jpg") }
      match sharpBg buf with
      | none => (s2, .failure)
      | some out =>
        let dest := galleryId ++ ".jpg"
        let s3 := { s2 with backgrounds := writeFileEntry s2.backgrounds dest out }
        let s4 := { s3 with
          galleries := mapSet s3.galleries galleryId
            { gallery with background := some dest } }
        (doSave s4, .success dest)

/-! ## Thumbnail generation (`generateThumbnail`) -/

/-- `fs.existsSync` on the cached thumbnail `thumbnails/<id>/<fn>.jpg`. -/
def thumbHas (s : ServerState) (id thumbName : String) : Bool :=
  s.thumbs.any (fun t => t.1 == id && t.2.1 == thumbName)

/-- The cached thumbnail's bytes, if present. -/
def thumbLookup (s : ServerState) (id thumbName : String) : Option Bytes :=
  (s.thumbs.find? (fun t => t.1 == id && t.2.1 == thumbName)).map
    (fun t => t.2.2)

/-- The source file `uploads/<id>/<fn>`, if present. -/
def srcLookup (s : ServerState) (id fn : String) : Option Bytes :=
  match findUpload s id with
  | none => none
  | some e => (e.files.find? (fun p => p.1 == fn)).map (fun p => p.2)

/-- `generateThumbnail(galleryId, filename)`.  `sharpThumb` models the
`sharp(src).resize(400).jpeg({quality: 80})` pipeline (`none` = the source is
unreadable or fails to decode; the handler's `catch` swallows the error).
The returned `Nat` counts invocations of the sharp decode/resize/encode/write
pipeline (the disk I/O the claim speaks of). -/
def generateThumbnail (sharpThumb : Bytes → Option Bytes) (s : ServerState)
    (galleryId filename : String) : ServerState × Nat :=
  let dest := filename ++ ".jpg"
  if thumbHas s galleryId dest then (s, 0)
  else
    match srcLookup s galleryId filename with
    | none => (s, 1)
    | some b =>
      match sharpThumb b with
      | none => (s, 1)
      | some out => ({ s with thumbs := s.thumbs ++ [(galleryId, dest, out)] }, 1)

/-! ## Social preview (`GET /api/gallery/:galleryId/og-image`) -/

/-- Response of the og-image handler. -/
inductive OgResp where
  | cachedServe
  | galleryNotFound
  | noPhotos
  | served
  | genFailed
deriving Repr, DecidableEq

/-- Whether a cached social preview `og-cache/<id>.jpg` exists. -/
def ogCached (s : ServerState) (id : String) : Bool :=
  s.ogCache.any (fun p => p.1 == id ++ ".jpg")

/-- Whether `backgrounds/` holds a file for this gallery. -/
def hasBackground (s : ServerState) (id : String) : Bool :=
  s.backgrounds.any (fun p => strStarts p.1 id)

/-- The authoritative non-hidden listing of `uploads/<id>` (empty when the
directory is absent). -/
def originalsListing (s : ServerState) (id : String) : List String :=
  match findUpload s id with
  | none => []
  | some e => nonHidden e.files

/-- Final step of the og-image handler: run sharp on the chosen source, cache
and serve on success, 500 on failure.  The third component records which
source bytes were fed to sharp. -/
def finishOg (sharpOg : Bytes → Option Bytes) (s : ServerState) (galleryId : String)
    (src : Bytes) : ServerState × OgResp × Option Bytes :=
  match sharpOg src with
  | none => (s, .genFailed, some src)
  | some out =>
    ({ s with ogCache := writeFileEntry s.ogCache (galleryId ++ ".jpg") out },
      .served, some src)

/-- The og-image handler: serve the cache if present; otherwise prefer the
gallery's background, else the first non-hidden original in listing order;
404 when neither exists. -/
def ogImageHandler (sharpOg : Bytes → Option Bytes) (s : ServerState)
    (galleryId : String) : ServerState × OgResp × Option Bytes :=
  if ogCached s galleryId then (s, .cachedServe, none)
  else
    match s.backgrounds.find? (fun p => strStarts p.1 galleryId) with
    | some bp => finishOg sharpOg s galleryId bp.2
    | none =>
      match findUpload s galleryId with
      | none => (s, .galleryNotFound, none)
      | some e =>
        match nonHiddenB e.files with
        | [] => (s, .noPhotos, none)
        | f :: _ => finishOg sharpOg s galleryId f.2

/-! ## ZIP download (`GET /api/gallery/:galleryId/download`) -/

/-- Response of the ZIP-download handler, up to the archive bytes: either a
404, or the ordered list of filenames fed to the `archiver` ZIP encoder. -/
inductive ZipResp where
  | galleryNotFound
  | noFiles
  | zipEntries (entries : List String)
deriving Repr, DecidableEq

/-- The ZIP-download handler: the file list comes from
`fs.readdirSync(galleryPath).filter(f => !f.startsWith('.'))`, never from the
index's cached `files`; each listed file is fed to the encoder in listing
order. -/
def downloadZipHandler (s : ServerState) (galleryId : String) : ZipResp :=
  match findUpload s galleryId with
  | none => .galleryNotFound
  | some e =>
    let files := nonHidden e.files
    if files.isEmpty then .noFiles else .zipEntries files

/-! ## Gallery creation (`POST /api/gallery/create`) -/

/-- Response of the create handler. -/
inductive CreateResp where
  | noPhotos
  | success (galleryId : String) (fileCount : Nat)
deriving Repr, DecidableEq

/-- multer's `filename` callback: replace every character outside
`[a-zA-Z0-9._-]` with `_`. -/
def sanitizeFilename (fn : String) : String :=
  String.mk (fn.data.map (fun c =>
    if (('a' ≤ c && c ≤ 'z') || ('A' ≤ c && c ≤ 'Z') || ('0' ≤ c && c ≤ '9') ||
        c == '.' || c == '_' || c == '-') then c else '_'))

/-- Ensure `uploads/<id>` exists (multer's `destination` callback creates it
lazily, on the first stored file). -/
def ensureUploadDir (s : ServerState) (id now : String) : ServerState :=
  if existsUpload s id then s
  else { s with
    uploadsDirExists := true,
    uploads := s.uploads ++ [{ name := id, isDir := true, files := [], birthtime := now }] }

/-- Store one uploaded file under `uploads/<id>` with its sanitized name. -/
def storeUpload (s : ServerState) (id : String) (fn : String) (b : Bytes) :
    ServerState :=
  { s with uploads := s.uploads.map (fun e =>
      if e.name == id && e.isDir then
        { e with files := writeFileEntry e.files fn b }
      else e) }

/-- multer `diskStorage` over the request's file array: for each file, the
`destination` callback (create the directory if missing) then the `filename`
callback (sanitize) then the write. -/
def multerStore (s : ServerState) (id now : String)
    (files : List (String × Bytes)) : ServerState :=
  files.foldl
    (fun st f => storeUpload (ensureUploadDir st id now) id (sanitizeFilename f.1) f.2)
    s

/-- `eventName` processing of the create and rename handlers:
`String(req.body.eventName || 'Untitled Event').trim().substring(0, 200)`
(an absent or empty name is falsy in JavaScript). -/
def processEventName (raw : String) : String :=
  (String.mk ((if raw == "" then "Untitled Event" else raw).trim.data.take 200))

/-- The skeleton record the `generateGalleryId` middleware inserts before
multer runs. -/
def skeletonGallery (uuid now : String) : Gallery :=
  { id := uuid, eventName := "", created := now, files := [], background := none }

/-- `POST /api/gallery/create`: the `generateGalleryId` middleware inserts a
skeleton record, multer stores the files, and the handler either rolls the
skeleton back (zero files) or records the stored names and persists. -/
def createGalleryRun (s : ServerState) (uuid now : String)
    (files : List (String × Bytes)) (eventName : String) :
    ServerState × CreateResp :=
  let s1 := { s with galleries := mapSet s.galleries uuid (skeletonGallery uuid now) }
  let s2 := multerStore s1 uuid now files
  if files.isEmpty then
    (doSave { s2 with galleries := mapDelete s2.galleries uuid }, .noPhotos)
  else
    match mapGet s2.galleries uuid with
    | none => (s2, .success uuid files.length)
    | some gallery =>
      let g1 := { gallery with
        files := files.map (fun f => sanitizeFilename f.1),
        eventName := processEventName eventName }
      (doSave { s2 with galleries := mapSet s2.galleries uuid g1 },
        .success uuid files.length)

/-! ## Spec-side measures and descriptions -/

/-- Number of index entries whose `uploads/<id>` path does not exist at all —
what case 1 of `reconcileGalleries` actually removes (`fs.existsSync`). -/
def staleByPath (s : ServerState) : Nat :=
  (s.galleries.filter (fun p => !(existsUpload s p.1))).length

/-- Number of index entries with no originals *directory* — the claim's
wording of a stale entry (a stray regular file at `uploads/<id>` still counts
as stale here). -/
def staleByDir (s : ServerState) : Nat :=
  (s.galleries.filter (fun p =>
    !(s.uploadsDirExists && s.uploads.any (fun e => e.name == p.1 && e.isDir)))).length

/-- Number of un-indexed valid-token directories under `uploads/`. -/
def unindexedCount (s : ServerState) : Nat :=
  if s.uploadsDirExists then
    (s.uploads.filter (fun e => shouldAdd s.galleries e)).length
  else 0

/-- What the background handler leaves in `backgrounds/` after its deletion
step: the first file whose name starts with the gallery id is removed. -/
def eraseBgFor (backgrounds : List (String × Bytes)) (id : String) :
    List (String × Bytes) :=
  match findBgFile backgrounds id with
  | some f => removeFile backgrounds f
  | none => backgrounds

/-! ## Concrete states used by counterexamples and witnesses -/

/-- A well-formed version-4 token used as a concrete gallery id. -/
def uuidX : String := "11111111-1111-4111-8111-111111111111"

/-- A second well-formed version-4 token. -/
def uuidY : String := "22222222-2222-4222-9222-222222222222"

/-- The gallery record of the concrete states below. -/
def galleryX : Gallery :=
  { id := uuidX, eventName := "Wedding", created := "2024-01-01T00:00:00.000Z",
    files := ["p.jpg"], background := some (uuidX ++ ".jpg") }

/-- A state with one gallery that has an existing background image and a
cached social preview. -/
def stateWithBg : ServerState :=
  { galleries := [(uuidX, galleryX)],
    persisted := [galleryX],
    uploadsDirExists := true,
    uploads := [{ name := uuidX, isDir := true, files := [("p.jpg", [7])],
                  birthtime := "2024-01-01T00:00:00.000Z" }],
    backgrounds := [(uuidX ++ ".jpg", [1])],
    thumbs := [],
    ogCache := [(uuidX ++ ".jpg", [2])] }

/-- A state whose index entry `uuidX` is backed by a stray regular file
(not a directory) at `uploads/<uuidX>`. -/
def stateFileEntry : ServerState :=
  { galleries := [(uuidX, galleryX)],
    persisted := [galleryX],
    uploadsDirExists := true,
    uploads := [{ name := uuidX, isDir := false, files := [],
                  birthtime := "2024-01-01T00:00:00.000Z" }],
    backgrounds := [], thumbs := [], ogCache := [] }

/-- A state with two un-indexed gallery directories and an empty index. -/
def stateTwoUnindexed : ServerState :=
  { galleries := [], persisted := [], uploadsDirExists := true,
    uploads := [{ name := uuidX, isDir := true, files := [], birthtime := "t1" },
                { name := uuidY, isDir := true, files := [], birthtime := "t2" }],
    backgrounds := [], thumbs := [], ogCache := [] }

/-- The gallery record of `stateFresh`. -/
def galleryFresh : Gallery :=
  { id := uuidX, eventName := "E", created := "t", files := ["p.jpg"],
    background := none }

/-- A state with one gallery directory holding one readable photo and no
cached artifacts. -/
def stateFresh : ServerState :=
  { galleries := [(uuidX, galleryFresh)],
    persisted := [],
    uploadsDirExists := true,
    uploads := [{ name := uuidX, isDir := true, files := [("p.jpg", [7])],
                  birthtime := "t" }],
    backgrounds := [], thumbs := [], ogCache := [] }

/-! ## Helper lemmas: the token parser -/

lemma hexRun_sound : ∀ (n : Nat) (cs r : List Char), hexRun n cs = some r →
    ∃ g, cs = g ++ r ∧ HexGroup g n := by
  intro n
  induction n with
  | zero =>
    intro cs r h
    simp [hexRun] at h
    exact ⟨[], by simp [h], by simp [HexGroup]⟩
  | succ n ih =>
    intro cs r h
    cases cs with
    | nil => simp [hexRun] at h
    | cons c cs =>
      simp only [hexRun] at h
      by_cases hc : isHexChar c
      · rw [if_pos hc] at h
        obtain ⟨g, hcs, hlen, hhex⟩ := ih cs r h
        refine ⟨c :: g, by simp [hcs], by simp [hlen], ?_⟩
        intro d hd
        rcases List.mem_cons.mp hd with rfl | hd
        · exact hc
        · exact hhex d hd
      · rw [if_neg hc] at h
        exact absurd h (by simp)

lemma hexRun_complete : ∀ (g : List Char) (n : Nat) (r : List Char),
    HexGroup g n → hexRun n (g ++ r) = some r
  | [], n, r, hg => by
    obtain ⟨hlen, _⟩ := hg
    simp at hlen
    subst hlen
    simp [hexRun]
  | c :: g, n, r, hg => by
    obtain ⟨hlen, hhex⟩ := hg
    cases n with
    | zero => simp at hlen
    | succ m =>
      have hc : isHexChar c = true := hhex c (by simp)
      have hrec : hexRun m (g ++ r) = some r :=
        hexRun_complete g m r ⟨by simpa using hlen, fun d hd => hhex d (by simp [hd])⟩
      simp [hexRun, hc, hrec]

lemma expectChar_eq_some {d : Char} {cs r : List Char} :
    expectChar d cs = some r ↔ cs = d :: r := by
  cases cs with
  | nil => simp [expectChar]
  | cons c cs =>
    by_cases hc : c = d
    · subst hc
      simp [expectChar]
    · simp [expectChar, hc]

lemma expectVariant_eq_some {cs r : List Char} :
    expectVariant cs = some r ↔ ∃ v, cs = v :: r ∧ isVariantChar v = true := by
  cases cs with
  | nil => simp [expectVariant]
  | cons c cs =>
    by_cases hc : isVariantChar c
    · simp only [expectVariant, hc, if_pos]
      constructor
      · rintro h
        simp at h
        exact ⟨c, by simp [h], hc⟩
      · rintro ⟨v, hv, hvar⟩
        simp [List.cons.injEq] at hv
        simp [hv.2]
    · simp only [expectVariant, hc]
      simp only [Bool.false_eq_true, if_false]
      constructor
      · rintro h
        exact absurd h (by simp)
      · rintro ⟨v, hv, hvar⟩
        obtain ⟨rfl, rfl⟩ := List.cons.injEq .. |>.mp hv
        exact absurd hvar (by simp [hc])

lemma isHexChar_of_variant {v : Char} (h : isVariantChar v = true) :
    isHexChar v = true := by
  simp [isVariantChar] at h
  rcases h with ((((rfl | rfl) | rfl) | rfl) | rfl) | rfl <;> decide

lemma uuidRegexTest_iff_grammar (s : String) :
    uuidRegexTest s = true ↔ UuidGrammar s.data := by
  rw [uuidRegexTest, beq_iff_eq]
  constructor
  · intro h
    rw [uuidParse] at h
    obtain ⟨r10, h10, hA5⟩ := Option.bind_eq_some.mp h
    obtain ⟨r9, h9, hD5⟩ := Option.bind_eq_some.mp h10
    obtain ⟨r8, h8, hA4⟩ := Option.bind_eq_some.mp h9
    obtain ⟨r7, h7, hV⟩ := Option.bind_eq_some.mp h8
    obtain ⟨r6, h6, hD4⟩ := Option.bind_eq_some.mp h7
    obtain ⟨r5, h5, hA3⟩ := Option.bind_eq_some.mp h6
    obtain ⟨r4, h4, hC4⟩ := Option.bind_eq_some.mp h5
    obtain ⟨r3, h3, hD2⟩ := Option.bind_eq_some.mp h4
    obtain ⟨r2, h2, hA2⟩ := Option.bind_eq_some.mp h3
    obtain ⟨r1, hA1, hD1⟩ := Option.bind_eq_some.mp h2
    obtain ⟨g1, hcs1, hg1⟩ := hexRun_sound _ _ _ hA1
    rw [expectChar_eq_some] at hD1
    obtain ⟨g2, hcs2, hg2⟩ := hexRun_sound _ _ _ hA2
    rw [expectChar_eq_some] at hD2
    rw [expectChar_eq_some] at hC4
    obtain ⟨t3, hcs3, hg3⟩ := hexRun_sound _ _ _ hA3
    rw [expectChar_eq_some] at hD4
    obtain ⟨v, hcs4, hvar⟩ := expectVariant_eq_some.mp hV
    obtain ⟨t4, hcs5, hg4⟩ := hexRun_sound _ _ _ hA4
    rw [expectChar_eq_some] at hD5
    obtain ⟨g5, hcs6, hg5⟩ := hexRun_sound _ _ _ hA5
    refine ⟨g1, g2, '4' :: t3, v :: t4, g5, ?_, hg1, hg2, ?_, ?_, ?_, ⟨t3, rfl⟩,
      ⟨v, t4, rfl, hvar⟩⟩
    · rw [hcs1, hD1, hcs2, hD2, hC4, hcs3, hD4, hcs4, hcs5, hD5, hcs6]
      simp
    · exact ⟨by simp [hg3.1], by
        intro d hd
        rcases List.mem_cons.mp hd with rfl | hd
        · decide
        · exact hg3.2 d hd⟩
    · exact ⟨by simp [hg4.1], by
        intro d hd
        rcases List.mem_cons.mp hd with rfl | hd
        · exact isHexChar_of_variant hvar
        · exact hg4.2 d hd⟩
    · exact hg5
  · rintro ⟨g1, g2, g3, g4, g5, hcs, h1, h2, h3, h4, h5, ⟨t3, rfl⟩, ⟨v, t4, rfl, hv⟩⟩
    have ht3 : HexGroup t3 3 :=
      ⟨by simpa using h3.1, fun d hd => h3.2 d (by simp [hd])⟩
    have ht4 : HexGroup t4 3 :=
      ⟨by simpa using h4.1, fun d hd => h4.2 d (by simp [hd])⟩
    rw [uuidParse, hcs]
    rw [hexRun_complete g1 8 _ h1, Option.some_bind]
    rw [show expectChar '-' ('-' :: (g2 ++ '-' :: ('4' :: t3 ++ '-' :: ((v :: t4) ++ '-' :: g5)))) = some (g2 ++ '-' :: ('4' :: t3 ++ '-' :: ((v :: t4) ++ '-' :: g5))) from expectChar_eq_some.mpr rfl, Option.some_bind]
    rw [hexRun_complete g2 4 _ h2, Option.some_bind]
    rw [show expectChar '-' ('-' :: ('4' :: t3 ++ '-' :: ((v :: t4) ++ '-' :: g5))) = some ('4' :: t3 ++ '-' :: ((v :: t4) ++ '-' :: g5)) from expectChar_eq_some.mpr rfl, Option.some_bind]
    rw [show ('4' :: t3 ++ '-' :: ((v :: t4) ++ '-' :: g5)) = '4' :: (t3 ++ '-' :: ((v :: t4) ++ '-' :: g5)) from rfl]
    rw [show expectChar '4' ('4' :: (t3 ++ '-' :: ((v :: t4) ++ '-' :: g5))) = some (t3 ++ '-' :: ((v :: t4) ++ '-' :: g5)) from expectChar_eq_some.mpr rfl, Option.some_bind]
    rw [hexRun_complete t3 3 _ ht3, Option.some_bind]
    rw [show expectChar '-' ('-' :: ((v :: t4) ++ '-' :: g5)) = some ((v :: t4) ++ '-' :: g5) from expectChar_eq_some.mpr rfl, Option.some_bind]
    rw [show expectVariant ((v :: t4) ++ '-' :: g5) = some (t4 ++ '-' :: g5) from expectVariant_eq_some.mpr ⟨v, rfl, hv⟩, Option.some_bind]
    rw [hexRun_complete t4 3 _ ht4, Option.some_bind]
    rw [show expectChar '-' ('-' :: g5) = some g5 from expectChar_eq_some.mpr rfl, Option.some_bind]
    rw [show g5 = g5 ++ [] by simp]
    rw [hexRun_complete g5 12 [] h5]

lemma uuid_chars {s : String} (h : validateGalleryId s = true) :
    ∀ c ∈ s.data, isHexChar c = true ∨ c = '-' := by
  have hg := (uuidRegexTest_iff_grammar s).mp h
  obtain ⟨g1, g2, g3, g4, g5, hcs, h1, h2, h3, h4, h5, _, _⟩ := hg
  intro c hc
  rw [hcs] at hc
  simp only [List.mem_append, List.mem_cons] at hc
  rcases hc with hc | rfl | hc | rfl | hc | rfl | hc | rfl | hc
  · exact Or.inl (h1.2 c hc)
  · exact Or.inr rfl
  · exact Or.inl (h2.2 c hc)
  · exact Or.inr rfl
  · exact Or.inl (h3.2 c hc)
  · exact Or.inr rfl
  · exact Or.inl (h4.2 c hc)
  · exact Or.inr rfl
  · exact Or.inl (h5.2 c hc)

/-! ## Helper lemmas: the gallery map and lists -/

lemma mapHas_false_iff {m : GalleryMap} {k : String} :
    mapHas m k = false ↔ ∀ p ∈ m, p.1 ≠ k := by
  simp [mapHas]

lemma mapHas_true_iff {m : GalleryMap} {k : String} :
    mapHas m k = true ↔ ∃ p ∈ m, p.1 = k := by
  simp [mapHas]

lemma mapGet_eq_none_iff {m : GalleryMap} {k : String} :
    mapGet m k = none ↔ mapHas m k = false := by
  simp [mapGet, mapHas, List.find?_eq_none]

lemma mapSet_of_not_has {m : GalleryMap} {k : String} {v : Gallery}
    (h : mapHas m k = false) : mapSet m k v = m ++ [(k, v)] := by
  simp [mapSet, h]

lemma mapHas_append {m1 m2 : GalleryMap} {k : String} :
    mapHas (m1 ++ m2) k = (mapHas m1 k || mapHas m2 k) := by
  simp [mapHas, List.any_append]

lemma mapHas_single {k k' : String} {v : Gallery} :
    mapHas [(k, v)] k' = (k == k') := by
  simp [mapHas]

lemma mapDelete_not_present {m : GalleryMap} {k : String}
    (h : ∀ p ∈ m, p.1 ≠ k) : mapDelete m k = m := by
  rw [mapDelete, List.filter_eq_self]
  intro p hp
  simpa using h p hp

lemma find?_append_of_none {α : Type} {p : α → Bool} {l1 l2 : List α}
    (h : l1.find? p = none) : (l1 ++ l2).find? p = l2.find? p := by
  rw [List.find?_append, h]
  rfl

lemma nonHidden_eq_map (files : List (String × Bytes)) :
    nonHidden files = (nonHiddenB files).map (fun p => p.1) := by
  induction files with
  | nil => rfl
  | cons f fs ih =>
    by_cases hf : strStarts f.1 "."
    · simp [nonHidden, nonHiddenB, hf] at ih ⊢
      exact ih
    · simp [nonHidden, nonHiddenB, hf] at ih ⊢
      exact ih

set_option maxRecDepth 10000

/-! ## Claim C5 -/

/-- C5: the Identifier Validator accepts a candidate string iff it matches the
version-4 UUID textual grammar — 36 characters in hyphenated groups of
8-4-4-4-12 hex digits, the third group starting with the digit `4`, the fourth
group starting with one of `8`, `9`, `a`, `b`, case-insensitive; in
particular the empty string, and any string containing `/`, `..`, a null
byte, or any character outside `[0-9a-fA-F-]`, is rejected. -/
theorem c5_validator_uuid_grammar :
    (∀ s : String, validateGalleryId s = true ↔ UuidGrammar s.data) ∧
    (∀ s : String, validateGalleryId s = true → s.data.length = 36) ∧
    validateGalleryId "" = false ∧
    (∀ s : String, '/' ∈ s.data → validateGalleryId s = false) ∧
    (∀ s : String, ContainsDotDot s.data → validateGalleryId s = false) ∧
    (∀ s : String, Char.ofNat 0 ∈ s.data → validateGalleryId s = false) ∧
    (∀ s : String, ∀ c ∈ s.data, (isHexChar c || c == '-') = false →
      validateGalleryId s = false) := by
  have key : ∀ (s : String), ∀ c ∈ s.data, (isHexChar c || c == '-') = false →
      validateGalleryId s = false := by
    intro s c hc hbad
    by_contra hvz
    have hv : validateGalleryId s = true := by
      revert hvz
      cases validateGalleryId s <;> simp
    rcases uuid_chars hv c hc with hx | rfl
    · simp [hx] at hbad
    · simp at hbad
  refine ⟨uuidRegexTest_iff_grammar, ?_, by decide, ?_, ?_, ?_, key⟩
  · intro s hv
    obtain ⟨g1, g2, g3, g4, g5, hcs, h1, h2, h3, h4, h5, _, _⟩ :=
      (uuidRegexTest_iff_grammar s).mp hv
    rw [hcs]
    simp [h1.1, h2.1, h3.1, h4.1, h5.1]
  · intro s hmem
    exact key s '/' hmem (by decide)
  · intro s hdd
    obtain ⟨l, r, hcs⟩ := hdd
    refine key s '.' ?_ (by decide)
    rw [hcs]
    simp
  · intro s hmem
    exact key s (Char.ofNat 0) hmem (by decide)

/-- Witness for C5 at concrete inputs: a well-formed token satisfies the
grammar and is 36 characters long; a string containing `/` is rejected. -/
theorem c5_validator_uuid_grammar_witness :
    UuidGrammar (String.data "550e8400-e29b-41d4-a716-446655440000") ∧
    (String.data "550e8400-e29b-41d4-a716-446655440000").length = 36 ∧
    validateGalleryId "has/slash" = false :=
  ⟨(c5_validator_uuid_grammar.1 "550e8400-e29b-41d4-a716-446655440000").mp
      (by decide),
    c5_validator_uuid_grammar.2.1 "550e8400-e29b-41d4-a716-446655440000"
      (by decide),
    c5_validator_uuid_grammar.2.2.2.1 "has/slash" (by decide)⟩

/-! ## Claim C10 -/

/-- C10: the string `..`, which consists only of dots, is accepted by the
read-path filename validator (`SAFE_FILENAME_RE` admits it), so the literal
parent-directory segment passes both middlewares of the public per-photo
download route and is interpolated into the filesystem path
`uploads/<id>/..`. -/
theorem c10_dotdot_passes_filename_validator :
    validateFilename ".." = true ∧
    String.data ".." = ['.', '.'] ∧
    singleDownloadRoute uuidX ".." =
      SingleDownloadStep.lookupAt ("uploads/" ++ uuidX ++ "/..") := by
  refine ⟨by decide, by decide, by decide⟩

/-! ## Claim C2 -/

/-- C2 counterexample: `saveGalleries` does not write to a temporary path and
rename; already on the empty table its I/O trace fails the
write-temp-then-rename shape the claim requires. -/
theorem c2_counterexample_no_temp_rename :
    ¬ IsTempThenRename (saveGalleriesTrace []) GALLERIES_FILE := by
  rintro ⟨tmp, content, hne, htr⟩
  simp [saveGalleriesTrace] at htr

/-- C2 (amended): every `save()` performs exactly one filesystem operation —
a single direct `writeFileSync` of the complete serialized table to the
persisted `galleries.json` path, with no temporary file and no rename — so
the atomic temp-and-rename pattern the claim describes is absent and a reader
concurrent with the write may observe a partially written file. -/
theorem c2_save_is_single_direct_write (m : GalleryMap) :
    (saveGalleriesTrace m).length = 1 ∧
    (∀ op ∈ saveGalleriesTrace m,
      op = FsWriteOp.writeFile GALLERIES_FILE (m.map (fun p => p.2))) ∧
    ¬ IsTempThenRename (saveGalleriesTrace m) GALLERIES_FILE := by
  refine ⟨rfl, ?_, ?_⟩
  · intro op hop
    simpa [saveGalleriesTrace] using hop
  · rintro ⟨tmp, content, hne, htr⟩
    simp [saveGalleriesTrace] at htr

/-- Witness for C2's amended statement on the empty table. -/
theorem c2_save_is_single_direct_write_witness :
    FsWriteOp.writeFile GALLERIES_FILE (([] : GalleryMap).map (fun p => p.2)) =
      FsWriteOp.writeFile GALLERIES_FILE [] :=
  (c2_save_is_single_direct_write []).2.1 _ (by simp [saveGalleriesTrace])

/-! ## Claim C1 -/

/-- C1 counterexample: a gallery with an existing background file and a cached
social preview, whose `writeBackground` call fails during normalization
(`sharp` throws).  After the call both files are gone — the handler deleted
them before attempting normalization — refuting "the prior background file
and the cached social-preview file are unchanged". -/
theorem c1_counterexample_failure_not_atomic :
    (backgroundHandler (fun _ => none) stateWithBg uuidX (some [0])).2 =
      BgResp.failure ∧
    stateWithBg.backgrounds = [(uuidX ++ ".jpg", [1])] ∧
    stateWithBg.ogCache = [(uuidX ++ ".jpg", [2])] ∧
    (backgroundHandler (fun _ => none) stateWithBg uuidX (some [0])).1.backgrounds
      = [] ∧
    (backgroundHandler (fun _ => none) stateWithBg uuidX (some [0])).1.ogCache
      = [] := by
  refine ⟨by decide, by decide, by decide, by decide, by decide⟩

/-- C1 (amended): when normalization fails, the handler responds with a 500
failure having already deleted the first background file for the id and the
cached preview (the deletions precede the normalization attempt, so the prior
files are not preserved); the in-memory index, the persisted file and the
uploads tree are unchanged, and no new background file is written. -/
theorem c1_background_failure_state (sharpBg : Bytes → Option Bytes)
    (s : ServerState) (id : String) (buf : Bytes) (g : Gallery)
    (hg : mapGet s.galleries id = some g) (hfail : sharpBg buf = none) :
    (backgroundHandler sharpBg s id (some buf)).2 = BgResp.failure ∧
    (backgroundHandler sharpBg s id (some buf)).1.galleries = s.galleries ∧
    (backgroundHandler sharpBg s id (some buf)).1.persisted = s.persisted ∧
    (backgroundHandler sharpBg s id (some buf)).1.uploads = s.uploads ∧
    (backgroundHandler sharpBg s id (some buf)).1.backgrounds =
      eraseBgFor s.backgrounds id ∧
    (backgroundHandler sharpBg s id (some buf)).1.ogCache =
      removeFile s.ogCache (id ++ ".jpg") := by
  rw [backgroundHandler, hg]
  cases hfind : findBgFile s.backgrounds id <;>
    simp [hfind, hfail, eraseBgFor]

/-- Witness for C1's amended statement on the concrete failing call. -/
theorem c1_background_failure_state_witness :
    (backgroundHandler (fun _ => none) stateWithBg uuidX (some [0])).2 =
      BgResp.failure ∧
    (backgroundHandler (fun _ => none) stateWithBg uuidX (some [0])).1.galleries =
      stateWithBg.galleries ∧
    (backgroundHandler (fun _ => none) stateWithBg uuidX (some [0])).1.persisted =
      stateWithBg.persisted ∧
    (backgroundHandler (fun _ => none) stateWithBg uuidX (some [0])).1.uploads =
      stateWithBg.uploads ∧
    (backgroundHandler (fun _ => none) stateWithBg uuidX (some [0])).1.backgrounds =
      eraseBgFor stateWithBg.backgrounds uuidX ∧
    (backgroundHandler (fun _ => none) stateWithBg uuidX (some [0])).1.ogCache =
      removeFile stateWithBg.ogCache (uuidX ++ ".jpg") :=
  c1_background_failure_state (fun _ => none) stateWithBg uuidX [0] galleryX
    (by decide) rfl

/-! ## Claim C6 -/

/-- C6 counterexample: for a source file that fails to decode, each of two
sequential `generateThumbnail` calls invokes the sharp decode pipeline — two
I/O attempts, not exactly one — and the second call does not observe a cached
thumbnail (none was written). -/
theorem c6_counterexample_corrupt_source_decoded_twice :
    (generateThumbnail (fun _ => none) stateFresh uuidX "p.jpg").2 = 1 ∧
    (generateThumbnail (fun _ => none)
        (generateThumbnail (fun _ => none) stateFresh uuidX "p.jpg").1
        uuidX "p.jpg").2 = 1 ∧
    thumbHas (generateThumbnail (fun _ => none) stateFresh uuidX "p.jpg").1
      uuidX "p.jpg.jpg" = false := by
  refine ⟨by decide, by decide, by decide⟩

/-- C6 (amended): for every `(id, filename)` whose thumbnail is not already
cached and whose source exists and decodes successfully, two sequential
`generateThumbnail` calls perform the decode/resize/encode/write I/O exactly
once (in the first call); the second call observes the cached file, performs
no I/O and leaves the state unchanged, and the cached thumbnail bytes after
the second call are identical to those after the first.  (Without these
provisos the claim fails: an undecodable source is re-attempted by each call,
and an already-cached thumbnail means zero I/O.) -/
theorem c6_thumbnail_idempotent_on_success (sharpThumb : Bytes → Option Bytes)
    (s : ServerState) (id fn : String) (b out : Bytes)
    (hfresh : thumbHas s id (fn ++ ".jpg") = false)
    (hsrc : srcLookup s id fn = some b)
    (hdec : sharpThumb b = some out) :
    (generateThumbnail sharpThumb s id fn).2 = 1 ∧
    (generateThumbnail sharpThumb
        (generateThumbnail sharpThumb s id fn).1 id fn).2 = 0 ∧
    (generateThumbnail sharpThumb
        (generateThumbnail sharpThumb s id fn).1 id fn).1 =
      (generateThumbnail sharpThumb s id fn).1 ∧
    thumbLookup (generateThumbnail sharpThumb s id fn).1 id (fn ++ ".jpg") =
      some out ∧
    thumbLookup (generateThumbnail sharpThumb
        (generateThumbnail sharpThumb s id fn).1 id fn).1 id (fn ++ ".jpg") =
      some out := by
  have h1 : generateThumbnail sharpThumb s id fn =
      ({ s with thumbs := s.thumbs ++ [(id, fn ++ ".jpg", out)] }, 1) := by
    simp [generateThumbnail, hfresh, hsrc, hdec]
  have hmem : thumbHas ({ s with thumbs := s.thumbs ++ [(id, fn ++ ".jpg", out)] }
      : ServerState) id (fn ++ ".jpg") = true := by
    simp [thumbHas]
  have h2 : generateThumbnail sharpThumb
      ({ s with thumbs := s.thumbs ++ [(id, fn ++ ".jpg", out)] } : ServerState)
      id fn =
      ({ s with thumbs := s.thumbs ++ [(id, fn ++ ".jpg", out)] }, 0) := by
    simp [generateThumbnail, hmem]
  have hnone : s.thumbs.find?
      (fun t => t.1 == id && t.2.1 == (fn ++ ".jpg")) = none := by
    rw [List.find?_eq_none]
    intro x hx
    have hall : ∀ x ∈ s.thumbs, ¬(x.1 == id && x.2.1 == (fn ++ ".jpg")) = true := by
      simpa [thumbHas] using hfresh
    simpa using hall x hx
  have hlook : thumbLookup
      ({ s with thumbs := s.thumbs ++ [(id, fn ++ ".jpg", out)] } : ServerState)
      id (fn ++ ".jpg") = some out := by
    rw [thumbLookup]
    simp only [find?_append_of_none hnone]
    simp [List.find?]
  rw [h1]
  simp only [h2]
  exact ⟨trivial, trivial, trivial, hlook, hlook⟩

/-- Witness for C6's amended statement: a fresh state with one decodable
photo. -/
theorem c6_thumbnail_idempotent_on_success_witness :
    (generateThumbnail (fun b => some (0 :: b)) stateFresh uuidX "p.jpg").2 = 1 ∧
    (generateThumbnail (fun b => some (0 :: b))
        (generateThumbnail (fun b => some (0 :: b)) stateFresh uuidX "p.jpg").1
        uuidX "p.jpg").2 = 0 ∧
    (generateThumbnail (fun b => some (0 :: b))
        (generateThumbnail (fun b => some (0 :: b)) stateFresh uuidX "p.jpg").1
        uuidX "p.jpg").1 =
      (generateThumbnail (fun b => some (0 :: b)) stateFresh uuidX "p.jpg").1 ∧
    thumbLookup (generateThumbnail (fun b => some (0 :: b)) stateFresh uuidX
        "p.jpg").1 uuidX ("p.jpg" ++ ".jpg") = some [0, 7] ∧
    thumbLookup (generateThumbnail (fun b => some (0 :: b))
        (generateThumbnail (fun b => some (0 :: b)) stateFresh uuidX "p.jpg").1
        uuidX "p.jpg").1 uuidX ("p.jpg" ++ ".jpg") = some [0, 7] :=
  c6_thumbnail_idempotent_on_success (fun b => some (0 :: b)) stateFresh uuidX
    "p.jpg" [7] [0, 7] (by decide) (by decide) rfl

/-! ## Claim C7 -/

/-- C7: for a gallery id with no cached social preview, the og-image handler
prefers the gallery's background file as the source when one exists, otherwise
takes the first non-hidden original in listing order, and responds with a 404
(NotFound) exactly when the gallery has neither a background nor any original
files.  (The hypothesis `hwf` restricts to well-formed trees where the entry
at `uploads/<id>`, if any, is a directory, as `readdirSync` requires.) -/
theorem c7_og_image_source_selection (sharpOg : Bytes → Option Bytes)
    (s : ServerState) (id : String)
    (hnc : ogCached s id = false)
    (hwf : ∀ e ∈ s.uploads, e.name = id → e.isDir = true) :
    (∀ bp : String × Bytes,
      s.backgrounds.find? (fun p => strStarts p.1 id) = some bp →
      (ogImageHandler sharpOg s id).2.2 = some bp.2) ∧
    (hasBackground s id = false →
      ∀ e, findUpload s id = some e →
      ∀ f rest, nonHiddenB e.files = f :: rest →
      (ogImageHandler sharpOg s id).2.2 = some f.2) ∧
    (((ogImageHandler sharpOg s id).2.1 = OgResp.galleryNotFound ∨
      (ogImageHandler sharpOg s id).2.1 = OgResp.noPhotos) ↔
      (hasBackground s id = false ∧ originalsListing s id = [])) := by
  cases hfind : s.backgrounds.find? (fun p => strStarts p.1 id) with
  | some bp =>
    have hh : ogImageHandler sharpOg s id = finishOg sharpOg s id bp.2 := by
      simp [ogImageHandler, hnc, hfind]
    have hbg : hasBackground s id = true := by
      have hp := List.find?_some hfind
      rw [hasBackground]
      simp only [List.any_eq_true]
      exact ⟨bp, List.mem_of_find?_eq_some hfind, by simpa using hp⟩
    refine ⟨?_, ?_, ?_⟩
    · intro bp' h
      cases h
      rw [hh, finishOg]
      cases sharpOg bp.2 <;> simp
    · intro hbad
      rw [hbg] at hbad
      cases hbad
    · rw [hh, finishOg]
      cases sharpOg bp.2 <;> simp [hbg]
  | none =>
    have hnb : hasBackground s id = false := by
      rw [hasBackground]
      simp only [List.any_eq_false]
      intro x hx
      simpa using List.find?_eq_none.mp hfind x hx
    cases hfu : findUpload s id with
    | none =>
      have hh : ogImageHandler sharpOg s id = (s, OgResp.galleryNotFound, none) := by
        simp [ogImageHandler, hnc, hfind, hfu]
      refine ⟨?_, ?_, ?_⟩
      · intro bp h
        cases h
      · intro _ e he
        cases he
      · rw [hh]
        simp [hnb, originalsListing, hfu]
    | some e =>
      cases hfs : nonHiddenB e.files with
      | nil =>
        have hh : ogImageHandler sharpOg s id = (s, OgResp.noPhotos, none) := by
          simp [ogImageHandler, hnc, hfind, hfu, hfs]
        refine ⟨?_, ?_, ?_⟩
        · intro bp h
          cases h
        · intro _ e' he' f rest hfr
          cases he'
          rw [hfs] at hfr
          cases hfr
        · rw [hh]
          simp [hnb, originalsListing, hfu, nonHidden_eq_map, hfs]
      | cons f rest =>
        have hh : ogImageHandler sharpOg s id = finishOg sharpOg s id f.2 := by
          simp [ogImageHandler, hnc, hfind, hfu, hfs]
        refine ⟨?_, ?_, ?_⟩
        · intro bp h
          cases h
        · intro _ e' he' f' rest' hfr
          cases he'
          rw [hfs] at hfr
          have hff : f = f' ∧ rest = rest' := by
            simpa using hfr
          obtain ⟨rfl, rfl⟩ := hff
          rw [hh, finishOg]
          cases sharpOg f.2 <;> simp
        · rw [hh, finishOg]
          cases sharpOg f.2 <;>
            simp [hnb, originalsListing, hfu, nonHidden_eq_map, hfs]

/-- Witness for C7 on a state with one gallery directory, one photo, no
background and no cached preview: the handler picks the first original. -/
theorem c7_og_image_source_selection_witness :
    (∀ bp : String × Bytes,
      stateFresh.backgrounds.find? (fun p => strStarts p.1 uuidX) = some bp →
      (ogImageHandler some stateFresh uuidX).2.2 = some bp.2) ∧
    (hasBackground stateFresh uuidX = false →
      ∀ e, findUpload stateFresh uuidX = some e →
      ∀ f rest, nonHiddenB e.files = f :: rest →
      (ogImageHandler some stateFresh uuidX).2.2 = some f.2) ∧
    (((ogImageHandler some stateFresh uuidX).2.1 = OgResp.galleryNotFound ∨
      (ogImageHandler some stateFresh uuidX).2.1 = OgResp.noPhotos) ↔
      (hasBackground stateFresh uuidX = false ∧
        originalsListing stateFresh uuidX = [])) :=
  c7_og_image_source_selection some stateFresh uuidX (by decide) (by decide)

/-! ## Claim C9 -/

/-- C9: the ZIP-download handler resolves its file list from the authoritative
directory listing of `uploads/<id>` (dot-files excluded) — never from the
index's cached `files` field — fails with a 404 exactly when the directory is
absent or its listing is empty, and otherwise feeds exactly the listed files
to the ZIP encoder in listing order; any state with the same uploads tree
gets the same response regardless of its metadata index.  (`hwf` restricts to
well-formed trees where the entry at `uploads/<id>`, if any, is a directory.) -/
theorem c9_zip_uses_authoritative_listing (s t : ServerState) (id : String)
    (hwf : ∀ e ∈ s.uploads, e.name = id → e.isDir = true)
    (ht1 : t.uploads = s.uploads)
    (ht2 : t.uploadsDirExists = s.uploadsDirExists) :
    ((downloadZipHandler s id = ZipResp.galleryNotFound ∨
      downloadZipHandler s id = ZipResp.noFiles) ↔
      originalsListing s id = []) ∧
    (∀ l, downloadZipHandler s id = ZipResp.zipEntries l →
      l = originalsListing s id) ∧
    downloadZipHandler t id = downloadZipHandler s id := by
  have hind : downloadZipHandler t id = downloadZipHandler s id := by
    simp only [downloadZipHandler, findUpload, ht1, ht2]
  refine ⟨?_, ?_, hind⟩
  · cases hfu : findUpload s id with
    | none =>
      have hh : downloadZipHandler s id = ZipResp.galleryNotFound := by
        simp [downloadZipHandler, hfu]
      rw [hh]
      simp [originalsListing, hfu]
    | some e =>
      by_cases hemp : nonHidden e.files = []
      · have hh : downloadZipHandler s id = ZipResp.noFiles := by
          simp [downloadZipHandler, hfu, hemp]
        rw [hh]
        simp [originalsListing, hfu, hemp]
      · have hh : downloadZipHandler s id = ZipResp.zipEntries (nonHidden e.files) := by
          simp [downloadZipHandler, hfu, hemp]
        rw [hh]
        simp [originalsListing, hfu, hemp]
  · cases hfu : findUpload s id with
    | none =>
      have hh : downloadZipHandler s id = ZipResp.galleryNotFound := by
        simp [downloadZipHandler, hfu]
      rw [hh]
      intro l hl
      cases hl
    | some e =>
      by_cases hemp : nonHidden e.files = []
      · have hh : downloadZipHandler s id = ZipResp.noFiles := by
          simp [downloadZipHandler, hfu, hemp]
        rw [hh]
        intro l hl
        cases hl
      · have hh : downloadZipHandler s id = ZipResp.zipEntries (nonHidden e.files) := by
          simp [downloadZipHandler, hfu, hemp]
        rw [hh]
        intro l hl
        cases hl
        simp [originalsListing, hfu]

/-- Witness for C9 on the one-photo state. -/
theorem c9_zip_uses_authoritative_listing_witness :
    ((downloadZipHandler stateFresh uuidX = ZipResp.galleryNotFound ∨
      downloadZipHandler stateFresh uuidX = ZipResp.noFiles) ↔
      originalsListing stateFresh uuidX = []) ∧
    (∀ l, downloadZipHandler stateFresh uuidX = ZipResp.zipEntries l →
      l = originalsListing stateFresh uuidX) ∧
    downloadZipHandler stateFresh uuidX = downloadZipHandler stateFresh uuidX :=
  c9_zip_uses_authoritative_listing stateFresh stateFresh uuidX (by decide)
    rfl rfl

/-! ## Claim C8 -/

/-- C8: a gallery-creation request with zero uploaded files fails with an
error response, rolls the freshly allocated skeleton record back (the
in-memory index equals its prior state and holds nothing under the new id),
rewrites the persisted file without any record for the new id, and leaves the
uploads tree untouched — in particular no directory for the new id exists. -/
theorem c8_create_zero_files_rolls_back (s : ServerState)
    (uuid now ev : String)
    (hfresh : mapHas s.galleries uuid = false)
    (hwf : ∀ p ∈ s.galleries, p.2.id = p.1)
    (hdir : ∀ e ∈ s.uploads, e.name ≠ uuid) :
    (createGalleryRun s uuid now [] ev).2 = CreateResp.noPhotos ∧
    (createGalleryRun s uuid now [] ev).1.galleries = s.galleries ∧
    mapGet (createGalleryRun s uuid now [] ev).1.galleries uuid = none ∧
    (createGalleryRun s uuid now [] ev).1.persisted =
      s.galleries.map (fun p => p.2) ∧
    (∀ g ∈ (createGalleryRun s uuid now [] ev).1.persisted, g.id ≠ uuid) ∧
    (createGalleryRun s uuid now [] ev).1.uploads = s.uploads ∧
    (∀ e ∈ (createGalleryRun s uuid now [] ev).1.uploads, e.name ≠ uuid) := by
  have hkeys := mapHas_false_iff.mp hfresh
  have hdel : mapDelete (s.galleries ++ [(uuid, skeletonGallery uuid now)]) uuid
      = s.galleries := by
    have h1 : mapDelete s.galleries uuid = s.galleries :=
      mapDelete_not_present hkeys
    simp only [mapDelete, List.filter_append] at h1 ⊢
    rw [h1]
    simp
  have hres : createGalleryRun s uuid now [] ev = (doSave s, CreateResp.noPhotos) := by
    simp only [createGalleryRun, List.isEmpty_nil, if_true, multerStore,
      List.foldl_nil]
    rw [mapSet_of_not_has hfresh, hdel]
  rw [hres]
  refine ⟨rfl, rfl, mapGet_eq_none_iff.mpr hfresh, rfl, ?_, rfl, hdir⟩
  intro g hg
  obtain ⟨p, hp, rfl⟩ := List.mem_map.mp hg
  rw [hwf p hp]
  exact hkeys p hp

/-- Witness for C8: allocating a fresh id in the one-gallery state and
uploading nothing. -/
theorem c8_create_zero_files_rolls_back_witness :
    (createGalleryRun stateFresh uuidY "t2" [] "Party").2 = CreateResp.noPhotos ∧
    (createGalleryRun stateFresh uuidY "t2" [] "Party").1.galleries =
      stateFresh.galleries ∧
    mapGet (createGalleryRun stateFresh uuidY "t2" [] "Party").1.galleries uuidY
      = none ∧
    (createGalleryRun stateFresh uuidY "t2" [] "Party").1.persisted =
      stateFresh.galleries.map (fun p => p.2) ∧
    (∀ g ∈ (createGalleryRun stateFresh uuidY "t2" [] "Party").1.persisted,
      g.id ≠ uuidY) ∧
    (createGalleryRun stateFresh uuidY "t2" [] "Party").1.uploads =
      stateFresh.uploads ∧
    (∀ e ∈ (createGalleryRun stateFresh uuidY "t2" [] "Party").1.uploads,
      e.name ≠ uuidY) :=
  c8_create_zero_files_rolls_back stateFresh uuidY "t2" "Party" (by decide)
    (by decide) (by decide)

/-! ## Helper lemmas: the reconciler -/

/-- The records case 2 of the reconciler appends, for a given starting map. -/
def pass2Adds (entries : List UploadsEntry) (m : GalleryMap) : GalleryMap :=
  (entries.filter (shouldAdd m)).map (fun e => (e.name, synthGallery e))

lemma shouldAdd_not_has {m : GalleryMap} {e : UploadsEntry}
    (h : shouldAdd m e = true) : mapHas m e.name = false := by
  simp [shouldAdd] at h
  simpa using h.1.2

lemma shouldAdd_congr {m m' : GalleryMap} {e : UploadsEntry}
    (h : mapHas m e.name = mapHas m' e.name) : shouldAdd m e = shouldAdd m' e := by
  rw [shouldAdd, shouldAdd, h]

lemma pass2_foldl (entries : List UploadsEntry) (m : GalleryMap) (b : Bool)
    (hnd : (entries.map (fun e => e.name)).Nodup) :
    entries.foldl pass2Step (m, b) =
      (m ++ pass2Adds entries m, b || !(pass2Adds entries m).isEmpty) := by
  induction entries generalizing m b with
  | nil => simp [pass2Adds]
  | cons e rest ih =>
    have hnd2 : (∀ x ∈ rest, ¬ x.name = e.name) ∧
        (rest.map (fun e => e.name)).Nodup := by
      simpa [List.nodup_cons] using hnd
    have hnd' : (rest.map (fun e => e.name)).Nodup := hnd2.2
    have hne : ∀ e' ∈ rest, ¬(e.name == e'.name) = true := by
      intro e' he' heq
      exact hnd2.1 e' he' (eq_of_beq heq).symm
    rw [List.foldl_cons]
    by_cases hsa : shouldAdd m e = true
    · have hstep : pass2Step (m, b) e = (m ++ [(e.name, synthGallery e)], true) := by
        rw [pass2Step]
        simp only [hsa, if_true]
        rw [mapSet_of_not_has (shouldAdd_not_has hsa)]
      rw [hstep, ih _ _ hnd']
      have hcongr : pass2Adds rest (m ++ [(e.name, synthGallery e)]) =
          pass2Adds rest m := by
        rw [pass2Adds, pass2Adds]
        congr 1
        apply List.filter_congr
        intro e' he'
        apply shouldAdd_congr
        rw [mapHas_append, mapHas_single]
        simp [hne e' he']
      rw [hcongr]
      have hcons : pass2Adds (e :: rest) m =
          (e.name, synthGallery e) :: pass2Adds rest m := by
        rw [pass2Adds, pass2Adds, List.filter_cons]
        simp [hsa]
      rw [hcons]
      simp
    · have hsa' : shouldAdd m e = false := by
        revert hsa
        cases shouldAdd m e <;> simp
      have hstep : pass2Step (m, b) e = (m, b) := by
        rw [pass2Step]
        simp [hsa']
      have hcons : pass2Adds (e :: rest) m = pass2Adds rest m := by
        rw [pass2Adds, pass2Adds, List.filter_cons]
        simp [hsa']
      rw [hstep, ih _ _ hnd', hcons]

lemma reconcilePass2_eq (s : ServerState) (m : GalleryMap)
    (hnd : (s.uploads.map (fun e => e.name)).Nodup) :
    reconcilePass2 s m =
      (if s.uploadsDirExists then
        (m ++ pass2Adds s.uploads m, !(pass2Adds s.uploads m).isEmpty)
       else (m, false)) := by
  rw [reconcilePass2]
  by_cases hd : s.uploadsDirExists <;>
    simp [hd, pass2_foldl _ _ _ hnd]

/-- Case 1's output: the kept entries, those whose `uploads/<id>` path
exists. -/
def reconPass1 (s : ServerState) : GalleryMap :=
  s.galleries.filter (fun p => existsUpload s p.1)

/-- The entries a full reconciliation pass appends after case 1. -/
def reconAdds (s : ServerState) : GalleryMap :=
  if s.uploadsDirExists then pass2Adds s.uploads (reconPass1 s) else []

/-- The gallery table a reconciliation pass produces. -/
def reconResultGalleries (s : ServerState) : GalleryMap :=
  reconPass1 s ++ reconAdds s

/-- Whether a reconciliation pass changes the table (the way
`reconcileGalleries` computes its `changed` flag). -/
def reconChanged (s : ServerState) : Bool :=
  s.galleries.any (fun p => !(existsUpload s p.1)) ||
    (reconcilePass2 s (reconPass1 s)).2

lemma reconcile_if_form (s : ServerState) :
    reconcileGalleries s =
      (if reconChanged s then
        (doSave { s with galleries := (reconcilePass2 s (reconPass1 s)).1 }, 1)
       else ({ s with galleries := (reconcilePass2 s (reconPass1 s)).1 }, 0)) :=
  rfl

lemma reconcilePass2_fst (s : ServerState)
    (hnd : (s.uploads.map (fun e => e.name)).Nodup) :
    (reconcilePass2 s (reconPass1 s)).1 = reconResultGalleries s := by
  rw [reconcilePass2_eq s _ hnd, reconResultGalleries, reconAdds]
  by_cases hd : s.uploadsDirExists <;> simp [hd]

lemma reconcilePass2_snd (s : ServerState)
    (hnd : (s.uploads.map (fun e => e.name)).Nodup) :
    (reconcilePass2 s (reconPass1 s)).2 = !(reconAdds s).isEmpty := by
  rw [reconcilePass2_eq s _ hnd, reconAdds]
  by_cases hd : s.uploadsDirExists <;> simp [hd]

lemma reconcile_galleries_eq (s : ServerState)
    (hnd : (s.uploads.map (fun e => e.name)).Nodup) :
    (reconcileGalleries s).1.galleries = reconResultGalleries s := by
  rw [reconcile_if_form, reconcilePass2_fst s hnd]
  split <;> simp [doSave]

lemma reconcile_fields (s : ServerState) :
    (reconcileGalleries s).1.uploads = s.uploads ∧
    (reconcileGalleries s).1.uploadsDirExists = s.uploadsDirExists ∧
    (reconcileGalleries s).1.backgrounds = s.backgrounds ∧
    (reconcileGalleries s).1.thumbs = s.thumbs ∧
    (reconcileGalleries s).1.ogCache = s.ogCache := by
  rw [reconcile_if_form]
  split <;> simp [doSave]

lemma reconcile_saves (s : ServerState) :
    (reconcileGalleries s).2 = (if reconChanged s then 1 else 0) := by
  rw [reconcile_if_form]
  split <;> simp

lemma existsUpload_of_mem {s : ServerState} (hd : s.uploadsDirExists = true)
    {e : UploadsEntry} (he : e ∈ s.uploads) : existsUpload s e.name = true := by
  rw [existsUpload, hd]
  simp only [Bool.true_and, List.any_eq_true]
  exact ⟨e, he, by simp⟩

lemma mapHas_reconPass1 {s : ServerState} (hd : s.uploadsDirExists = true)
    {e : UploadsEntry} (he : e ∈ s.uploads) :
    mapHas (reconPass1 s) e.name = mapHas s.galleries e.name := by
  cases h : mapHas s.galleries e.name
  · rw [mapHas_false_iff] at h
    rw [mapHas_false_iff]
    intro p hp
    exact h p (List.mem_filter.mp hp).1
  · rw [mapHas_true_iff] at h
    obtain ⟨p, hp, hpk⟩ := h
    rw [mapHas_true_iff]
    refine ⟨p, List.mem_filter.mpr ⟨hp, ?_⟩, hpk⟩
    rw [hpk]
    exact existsUpload_of_mem hd he

lemma shouldAdd_reconPass1 {s : ServerState} (hd : s.uploadsDirExists = true)
    {e : UploadsEntry} (he : e ∈ s.uploads) :
    shouldAdd (reconPass1 s) e = shouldAdd s.galleries e :=
  shouldAdd_congr (mapHas_reconPass1 hd he)

lemma reconResult_length (s : ServerState) :
    (reconResultGalleries s).length =
      s.galleries.length - staleByPath s + unindexedCount s ∧
    staleByPath s ≤ s.galleries.length := by
  have hsplit := @List.length_eq_length_filter_add _ s.galleries
    (fun p => existsUpload s p.1)
  have hstale : staleByPath s =
      (s.galleries.filter (fun p => !(existsUpload s p.1))).length := rfl
  have hadds : (reconAdds s).length = unindexedCount s := by
    rw [reconAdds, unindexedCount]
    by_cases hd : s.uploadsDirExists
    · rw [if_pos hd, if_pos hd, pass2Adds, List.length_map]
      congr 1
      exact List.filter_congr (fun e he => shouldAdd_reconPass1 hd he)
    · rw [if_neg hd, if_neg hd]
      rfl
  constructor
  · rw [reconResultGalleries, List.length_append, hadds, reconPass1, hstale]
    omega
  · rw [hstale]
    omega

lemma reconResult_mem (s : ServerState) (k : String) :
    mapHas (reconResultGalleries s) k = true ↔
      ((mapHas s.galleries k = true ∧ existsUpload s k = true) ∨
       (s.uploadsDirExists = true ∧
         ∃ e ∈ s.uploads, e.name = k ∧ shouldAdd s.galleries e = true)) := by
  rw [reconResultGalleries, mapHas_append, Bool.or_eq_true]
  refine or_congr ?_ ?_
  · rw [mapHas_true_iff]
    constructor
    · rintro ⟨p, hp, hpk⟩
      have hm := List.mem_filter.mp hp
      refine ⟨mapHas_true_iff.mpr ⟨p, hm.1, hpk⟩, ?_⟩
      rw [← hpk]
      exact hm.2
    · rintro ⟨hg, hex⟩
      obtain ⟨p, hp, hpk⟩ := mapHas_true_iff.mp hg
      refine ⟨p, List.mem_filter.mpr ⟨hp, ?_⟩, hpk⟩
      rw [hpk]
      exact hex
  · rw [reconAdds]
    by_cases hd : s.uploadsDirExists
    · rw [if_pos hd, mapHas_true_iff]
      constructor
      · rintro ⟨pr, hpr, hprk⟩
        rw [pass2Adds] at hpr
        obtain ⟨e, he, rfl⟩ := List.mem_map.mp hpr
        have hef := List.mem_filter.mp he
        refine ⟨hd, e, hef.1, hprk, ?_⟩
        have := hef.2
        rw [shouldAdd_reconPass1 hd hef.1] at this
        exact this
      · rintro ⟨_, e, he, hek, hsa⟩
        refine ⟨(e.name, synthGallery e), ?_, hek⟩
        rw [pass2Adds]
        refine List.mem_map_of_mem _ (List.mem_filter.mpr ⟨he, ?_⟩)
        rw [shouldAdd_reconPass1 hd he]
        exact hsa
    · rw [if_neg hd]
      constructor
      · intro h
        rw [mapHas] at h
        simp at h
      · rintro ⟨hdt, _⟩
        exact absurd hdt hd

lemma reconChanged_false_iff (s : ServerState)
    (hnd : (s.uploads.map (fun e => e.name)).Nodup) :
    reconChanged s = false ↔ reconResultGalleries s = s.galleries := by
  rw [reconChanged, reconcilePass2_snd s hnd, Bool.or_eq_false_iff]
  constructor
  · rintro ⟨hA, hE⟩
    have hkeep : reconPass1 s = s.galleries := by
      rw [reconPass1, List.filter_eq_self]
      intro p hp
      have := List.any_eq_false.mp hA p hp
      simpa using this
    have hadds : reconAdds s = [] := by
      revert hE
      cases reconAdds s <;> simp
    rw [reconResultGalleries, hkeep, hadds, List.append_nil]
  · intro heq
    by_cases hA : s.galleries.any (fun p => !(existsUpload s p.1)) = true
    · exfalso
      obtain ⟨p, hp, hpe⟩ := List.any_eq_true.mp hA
      have hpe' : existsUpload s p.1 = false := by
        simpa using hpe
      have hgal : mapHas s.galleries p.1 = true := mapHas_true_iff.mpr ⟨p, hp, rfl⟩
      have hres : mapHas (reconResultGalleries s) p.1 = false := by
        rw [mapHas_false_iff]
        intro q hq
        rcases List.mem_append.mp hq with hq | hq
        · have hm := List.mem_filter.mp hq
          intro hqp
          rw [hqp, hpe'] at hm
          cases hm.2
        · rw [reconAdds] at hq
          by_cases hd : s.uploadsDirExists
          · rw [if_pos hd, pass2Adds] at hq
            obtain ⟨e, he, rfl⟩ := List.mem_map.mp hq
            intro hqp
            have hqp' : e.name = p.1 := hqp
            have hex := existsUpload_of_mem hd (List.mem_filter.mp he).1
            rw [hqp', hpe'] at hex
            cases hex
          · rw [if_neg hd] at hq
            cases hq
      rw [heq, hgal] at hres
      cases hres
    · have hA' : s.galleries.any (fun p => !(existsUpload s p.1)) = false := by
        revert hA
        cases s.galleries.any (fun p => !(existsUpload s p.1)) <;> simp
      refine ⟨hA', ?_⟩
      have hkeep : reconPass1 s = s.galleries := by
        rw [reconPass1, List.filter_eq_self]
        intro p hp
        have := List.any_eq_false.mp hA' p hp
        simpa using this
      rw [reconResultGalleries, hkeep] at heq
      have hlen := congrArg List.length heq
      rw [List.length_append] at hlen
      have : (reconAdds s).length = 0 := by omega
      rw [List.length_eq_zero] at this
      rw [this]
      rfl

lemma reconcile_idem (s : ServerState)
    (hnd : (s.uploads.map (fun e => e.name)).Nodup) :
    reconcileGalleries (reconcileGalleries s).1 = ((reconcileGalleries s).1, 0) := by
  obtain ⟨hu, hde, _, _, _⟩ := reconcile_fields s
  have hgal : (reconcileGalleries s).1.galleries = reconResultGalleries s :=
    reconcile_galleries_eq s hnd
  have hndr : ((reconcileGalleries s).1.uploads.map (fun e => e.name)).Nodup := by
    rw [hu]
    exact hnd
  have hex : ∀ n, existsUpload (reconcileGalleries s).1 n = existsUpload s n := by
    intro n
    rw [existsUpload, existsUpload, hu, hde]
  have hall : ∀ p ∈ (reconcileGalleries s).1.galleries,
      existsUpload (reconcileGalleries s).1 p.1 = true := by
    intro p hp
    rw [hex]
    rw [hgal, reconResultGalleries] at hp
    rcases List.mem_append.mp hp with hp | hp
    · exact (List.mem_filter.mp hp).2
    · rw [reconAdds] at hp
      by_cases hd : s.uploadsDirExists
      · rw [if_pos hd, pass2Adds] at hp
        obtain ⟨e, he, rfl⟩ := List.mem_map.mp hp
        exact existsUpload_of_mem hd (List.mem_filter.mp he).1
      · rw [if_neg hd] at hp
        cases hp
  have hp1 : reconPass1 (reconcileGalleries s).1 = (reconcileGalleries s).1.galleries := by
    rw [reconPass1, List.filter_eq_self]
    intro p hp
    exact hall p hp
  have hadds : reconAdds (reconcileGalleries s).1 = [] := by
    rw [reconAdds]
    by_cases hd : (reconcileGalleries s).1.uploadsDirExists
    · rw [if_pos hd, hp1, pass2Adds, List.map_eq_nil_iff, List.filter_eq_nil_iff]
      intro e he hsa
      have hdS : s.uploadsDirExists = true := by
        rw [← hde]
        exact hd
      have heS : e ∈ s.uploads := by
        rw [← hu]
        exact he
      have hmf : mapHas (reconcileGalleries s).1.galleries e.name = false :=
        shouldAdd_not_has hsa
      have hmt : mapHas (reconcileGalleries s).1.galleries e.name = true := by
        rw [hgal]
        apply (reconResult_mem s e.name).mpr
        by_cases hg : mapHas s.galleries e.name = true
        · exact Or.inl ⟨hg, existsUpload_of_mem hdS heS⟩
        · have hgf : mapHas s.galleries e.name = false := by
            revert hg
            cases mapHas s.galleries e.name <;> simp
          refine Or.inr ⟨hdS, e, heS, rfl, ?_⟩
          rw [shouldAdd] at hsa ⊢
          rw [hgf]
          rw [hmf] at hsa
          simpa using hsa
      rw [hmt] at hmf
      cases hmf
    · rw [if_neg hd]
  have hch : reconChanged (reconcileGalleries s).1 = false := by
    rw [reconChanged, reconcilePass2_snd _ hndr, hadds, Bool.or_eq_false_iff]
    refine ⟨?_, rfl⟩
    rw [List.any_eq_false]
    intro p hp
    simpa using hall p hp
  rw [reconcile_if_form (reconcileGalleries s).1, if_neg (by rw [hch]; simp),
    reconcilePass2_fst _ hndr, reconResultGalleries, hp1, hadds, List.append_nil]

lemma mapGet_some_has {m : GalleryMap} {k : String} {g : Gallery}
    (h : mapGet m k = some g) : mapHas m k = true := by
  cases hh : mapHas m k
  · rw [mapGet_eq_none_iff.mpr hh] at h
    cases h
  · rfl

lemma listRun_foldl (entries : List UploadsEntry) (st : ServerState) (n : Nat)
    (hnd : (entries.map (fun e => e.name)).Nodup) :
    (entries.foldl listStep (st, n)).2 =
      n + (entries.filter
        (fun e => e.isDir && !(mapHas st.galleries e.name))).length ∧
    (∀ k, mapHas st.galleries k = true →
      mapHas (entries.foldl listStep (st, n)).1.galleries k = true) := by
  induction entries generalizing st n with
  | nil => simp
  | cons e rest ih =>
    have hnd2 : (∀ x ∈ rest, ¬ x.name = e.name) ∧
        (rest.map (fun e => e.name)).Nodup := by
      simpa [List.nodup_cons] using hnd
    rw [List.foldl_cons]
    cases hdir : e.isDir
    · have hstep : listStep (st, n) e = (st, n) := by
        rw [listStep]
        simp [hdir]
      rw [hstep, List.filter_cons]
      simp only [hdir, Bool.false_and, Bool.false_eq_true, if_false]
      exact ih st n hnd2.2
    · cases hget : mapGet st.galleries e.name with
      | some g =>
        have hstep : listStep (st, n) e = (st, n) := by
          rw [listStep]
          simp [hdir, hget]
        have hhas := mapGet_some_has hget
        rw [hstep, List.filter_cons]
        simp only [hdir, hhas, Bool.not_true, Bool.and_false, Bool.false_eq_true,
          if_false]
        exact ih st n hnd2.2
      | none =>
        have hhas : mapHas st.galleries e.name = false :=
          mapGet_eq_none_iff.mp hget
        have hstep : listStep (st, n) e =
            (doSave { st with
              galleries := st.galleries ++ [(e.name, synthGallery e)] }, n + 1) := by
          rw [listStep]
          simp only [hdir, if_true, hget]
          rw [mapSet_of_not_has hhas]
        rw [hstep]
        have hih := ih (doSave { st with
          galleries := st.galleries ++ [(e.name, synthGallery e)] }) (n + 1) hnd2.2
        have hgal : (doSave { st with
            galleries := st.galleries ++ [(e.name, synthGallery e)] }).galleries =
            st.galleries ++ [(e.name, synthGallery e)] := rfl
        have hcongr : rest.filter (fun e' => e'.isDir &&
              !(mapHas (st.galleries ++ [(e.name, synthGallery e)]) e'.name)) =
            rest.filter (fun e' => e'.isDir && !(mapHas st.galleries e'.name)) := by
          apply List.filter_congr
          intro e' he'
          rw [mapHas_append, mapHas_single]
          have : (e.name == e'.name) = false := by
            simpa using fun h => hnd2.1 e' he' h.symm
          rw [this]
          simp
        constructor
        · rw [hih.1, hgal, hcongr, List.filter_cons]
          simp only [hdir, hhas, Bool.not_false, Bool.and_true, Bool.true_and,
            if_true]
          simp only [List.length_cons]
          omega
        · intro k hk
          apply hih.2
          rw [hgal, mapHas_append, hk]
          rfl

lemma listGalleriesRun_spec (s : ServerState)
    (hnd : (s.uploads.map (fun e => e.name)).Nodup) :
    (listGalleriesRun s).2 =
      (if s.uploadsDirExists then
        (s.uploads.filter
          (fun e => e.isDir && !(mapHas s.galleries e.name))).length
       else 0) ∧
    (∀ k, mapHas s.galleries k = true →
      mapHas (listGalleriesRun s).1.galleries k = true) := by
  rw [listGalleriesRun]
  by_cases hd : s.uploadsDirExists
  · rw [if_pos hd, if_pos hd]
    have := listRun_foldl s.uploads s 0 hnd
    exact ⟨by rw [this.1]; omega, this.2⟩
  · rw [if_neg hd, if_neg hd]
    exact ⟨rfl, fun k hk => hk⟩

/-! ## Claim C3 -/

/-- C3 counterexample: an index entry backed by a stray regular file (not a
directory) at `uploads/<id>`.  By the claim's accounting the entry is stale
(it has no originals directory), so the final size should be
`1 − 1 + 0 = 0`; but `reconcileGalleries` tests bare path existence
(`fs.existsSync`), keeps the entry, and the index stays at size 1. -/
theorem c3_counterexample_file_backed_entry :
    ¬ ((reconcileGalleries stateFileEntry).1.galleries.length =
        stateFileEntry.galleries.length - staleByDir stateFileEntry +
          unindexedCount stateFileEntry) ∧
    (reconcileGalleries stateFileEntry).1.galleries.length = 1 ∧
    staleByDir stateFileEntry = 1 := by
  refine ⟨by decide, by decide, by decide⟩

/-- C3 (amended): with a stale entry counted as an index id whose
`uploads/<id>` path does not exist at all (`fs.existsSync`, the code's test —
a stray regular file at that path keeps the entry), one reconciliation pass
yields an index of size `original − stale + un-indexed`; its membership is
exactly the surviving ids plus the un-indexed valid-token directories; and a
second consecutive pass returns the same state with zero writes to the
persisted file. -/
theorem c3_reconciliation_convergence (s : ServerState)
    (hnd : (s.uploads.map (fun e => e.name)).Nodup) :
    ((reconcileGalleries s).1.galleries.length =
      s.galleries.length - staleByPath s + unindexedCount s) ∧
    staleByPath s ≤ s.galleries.length ∧
    (∀ k : String, mapHas (reconcileGalleries s).1.galleries k = true ↔
      ((mapHas s.galleries k = true ∧ existsUpload s k = true) ∨
       (s.uploadsDirExists = true ∧
         ∃ e ∈ s.uploads, e.name = k ∧ shouldAdd s.galleries e = true))) ∧
    reconcileGalleries (reconcileGalleries s).1 = ((reconcileGalleries s).1, 0) := by
  have hg := reconcile_galleries_eq s hnd
  refine ⟨?_, (reconResult_length s).2, ?_, reconcile_idem s hnd⟩
  · rw [hg]
    exact (reconResult_length s).1
  · intro k
    rw [hg]
    exact reconResult_mem s k

/-- Witness for C3's amended statement on a state with one gallery and one
valid un-indexed directory. -/
theorem c3_reconciliation_convergence_witness :
    ((reconcileGalleries stateTwoUnindexed).1.galleries.length =
      stateTwoUnindexed.galleries.length - staleByPath stateTwoUnindexed +
        unindexedCount stateTwoUnindexed) ∧
    staleByPath stateTwoUnindexed ≤ stateTwoUnindexed.galleries.length ∧
    (∀ k : String,
      mapHas (reconcileGalleries stateTwoUnindexed).1.galleries k = true ↔
      ((mapHas stateTwoUnindexed.galleries k = true ∧
          existsUpload stateTwoUnindexed k = true) ∨
       (stateTwoUnindexed.uploadsDirExists = true ∧
         ∃ e ∈ stateTwoUnindexed.uploads, e.name = k ∧
           shouldAdd stateTwoUnindexed.galleries e = true))) ∧
    reconcileGalleries (reconcileGalleries stateTwoUnindexed).1 =
      ((reconcileGalleries stateTwoUnindexed).1, 0) :=
  c3_reconciliation_convergence stateTwoUnindexed (by decide)

/-! ## Claim C4 -/

/-- C4 counterexample: two un-indexed directories and an empty index.  The
run performed before a full gallery-listing response persists twice — once
per synthesized entry, inside the loop — refuting "persists at most once, at
the end of the pass". -/
theorem c4_counterexample_listing_persists_per_entry :
    (listGalleriesRun stateTwoUnindexed).2 = 2 := by
  decide

/-- C4 (amended): the startup run (`reconcileGalleries`) persists at most
once, at the end, and exactly when it changed the table.  The full-listing
handler, however, does not run that pass: it synthesizes a record inline for
each directory missing from the index, persisting once per synthesized entry
(so its save count equals the number of such directories), and it never
removes entries. -/
theorem c4_persistence_counts (s : ServerState)
    (hnd : (s.uploads.map (fun e => e.name)).Nodup) :
    (reconcileGalleries s).2 ≤ 1 ∧
    ((reconcileGalleries s).2 = 0 ↔
      (reconcileGalleries s).1.galleries = s.galleries) ∧
    ((listGalleriesRun s).2 =
      (if s.uploadsDirExists then
        (s.uploads.filter
          (fun e => e.isDir && !(mapHas s.galleries e.name))).length
       else 0)) ∧
    (∀ k, mapHas s.galleries k = true →
      mapHas (listGalleriesRun s).1.galleries k = true) := by
  refine ⟨?_, ?_, (listGalleriesRun_spec s hnd).1, (listGalleriesRun_spec s hnd).2⟩
  · rw [reconcile_saves]
    split <;> simp
  · rw [reconcile_saves, reconcile_galleries_eq s hnd]
    cases hc : reconChanged s
    · simp only [Bool.false_eq_true, if_false]
      have := (reconChanged_false_iff s hnd).mp hc
      simp [this]
    · simp only [if_true]
      constructor
      · intro h
        cases h
      · intro heq
        have := (reconChanged_false_iff s hnd).mpr heq
        rw [hc] at this
        cases this

/-- Witness for C4's amended statement on the two-directory state. -/
theorem c4_persistence_counts_witness :
    (reconcileGalleries stateTwoUnindexed).2 ≤ 1 ∧
    ((reconcileGalleries stateTwoUnindexed).2 = 0 ↔
      (reconcileGalleries stateTwoUnindexed).1.galleries =
        stateTwoUnindexed.galleries) ∧
    ((listGalleriesRun stateTwoUnindexed).2 =
      (if stateTwoUnindexed.uploadsDirExists then
        (stateTwoUnindexed.uploads.filter
          (fun e => e.isDir &&
            !(mapHas stateTwoUnindexed.galleries e.name))).length
       else 0)) ∧
    (∀ k, mapHas stateTwoUnindexed.galleries k = true →
      mapHas (listGalleriesRun stateTwoUnindexed).1.galleries k = true) :=
  c4_persistence_counts stateTwoUnindexed (by decide)

end MeTransfer
